import Mathlib

/-!
Verification of the entityx_python scripting bridge (PythonSystem.h /
PythonSystem.cc) against its natural-language specification.

The embedding models the bridge runtime:
  * `PythonScript` — the script component (module, class, captured args,
    optional realized script object);
  * `PythonEventProxy` — an event proxy with a handler-method name and an
    ordered registration list (`std::list<Entity>`);
  * `receiveComponentAdded` — the bridge's handler for
    `ComponentAddedEvent<PythonScript>` (lazy realization + proxy
    registration);
  * `receiveEntityDestroyed` — the handler for `EntityDestroyedEvent`;
  * `PythonSystem_update` — the per-tick update pass;
  * `BroadcastPythonEventProxy_receive` — broadcast event delivery.

Python-side objects are modelled by the surface the C++ code observes:
the set of attribute names an object exposes (`PyObject_HasAttrString`,
`object.attr(...)` lookup), which of those raise when invoked, and — for
objects produced by the class factory — the exact positional argument
list the factory received.
-/

/-- Entity identity: index + version pair (entityx `Entity::Id`). -/
structure EntityId where
  index : Nat
  version : Nat
deriving DecidableEq

/-- An opaque Python value, as forwarded through the bridge (constructor
arguments and the entity identity passed to the factory). -/
inductive Value where
  | vint (n : Int)
  | vstr (s : String)
  | vid (e : EntityId)
deriving DecidableEq

/-- A Python script object, modelled by what the C++ bridge can observe of
it: the attribute names it exposes, which attribute invocations raise,
and (when it was produced by the class factory) the positional argument
list the factory was called with. -/
structure ScriptObject where
  attrs : List String
  raising : List String
  factoryCall : Option (List Value)
deriving DecidableEq

/-- A Python class, modelled by the attribute surface and raising
behaviour of its instances. -/
structure PyClass where
  attrs : List String
  raising : List String
deriving DecidableEq

/-- The Python module/class environment seen by `py::import` +
`module.attr(cls)`: resolves a (module, class) name pair, or fails. -/
def PyEnv : Type := String → String → Option PyClass

/-- Resolution failure during realization (unresolvable module or class:
`py::import` / attribute lookup throwing). -/
structure ResolveError where
  module : String
  cls : String
deriving DecidableEq

/-- Modelled from the spec: the Python-side class factory
`_from_raw_entity` lives in the installed `entityx` Python package, which
is not present under src/. Per the spec it constructs an instance of the
resolved class from the positional arguments it receives. We model the
resulting object as carrying the class's attribute surface and a record
of the exact positional argument list the factory was called with. -/
def from_raw_entity (k : PyClass) (posArgs : List Value) : ScriptObject :=
  { attrs := k.attrs, raising := k.raising, factoryCall := some posArgs }

/-- The `PythonScript` component: module, class, captured constructor
arguments, and the (initially absent) realized script object. -/
structure PythonScript where
  module : String
  cls : String
  args : List Value
  object : Option ScriptObject
deriving DecidableEq

/-- `PythonScript::unpack_args`: the variadic constructor appends each
argument in turn to the (initially empty) `args` list. -/
def unpack_args (acc : List Value) : List Value → List Value
  | [] => acc
  | a :: rest => unpack_args (acc ++ [a]) rest

/-- The forward-path constructor
`PythonScript(module, cls, args...)`: captures module, class and the
argument list; the script object is left unset. -/
def PythonScript.fromClass (module cls : String) (ctorArgs : List Value) : PythonScript :=
  { module := module, cls := cls, args := unpack_args [] ctorArgs, object := none }

/-- The inverse-path constructor `PythonScript(boost::python::object)`:
wraps an already-existing Python object; module/class default-construct
empty and no arguments are captured. -/
def PythonScript.fromObject (o : ScriptObject) : PythonScript :=
  { module := "", cls := "", args := [], object := some o }

/-- An event proxy (`PythonEventProxy`): a handler-method name and the
ordered list of registered receiver entities (`std::list<Entity>`). -/
structure PythonEventProxy where
  handler_name : String
  entities : List EntityId
deriving DecidableEq

/-- `PythonEventProxy::can_send`: the default eligibility test,
`PyObject_HasAttrString(object.ptr(), handler_name.c_str())`. -/
def can_send (p : PythonEventProxy) (o : ScriptObject) : Bool :=
  o.attrs.contains p.handler_name

/-- `PythonEventProxy::add_receiver`: `entities.push_back(entity)`. -/
def add_receiver (p : PythonEventProxy) (e : EntityId) : PythonEventProxy :=
  { p with entities := p.entities ++ [e] }

/-- Erase the first occurrence of `e` (the C++ loop erases the first
matching element and breaks). -/
def deleteFirst : List EntityId → EntityId → List EntityId
  | [], _ => []
  | x :: xs, e => if x = e then xs else x :: deleteFirst xs e

/-- `PythonEventProxy::delete_receiver`: iterate; erase the first entry
equal to `entity`, then break. -/
def delete_receiver (p : PythonEventProxy) (e : EntityId) : PythonEventProxy :=
  { p with entities := deleteFirst p.entities e }

/-- The registration loop at the end of
`PythonSystem::receive(const ComponentAddedEvent<PythonScript>&)`:
for every proxy, if `can_send` passes on the component's script object,
`add_receiver` the entity. -/
def registerWithProxies (ps : List PythonEventProxy) (e : EntityId) (o : ScriptObject) :
    List PythonEventProxy :=
  ps.map fun p => if can_send p o then add_receiver p e else p

/-- `PythonSystem::receive(const ComponentAddedEvent<PythonScript>&)`:
if the component has no Python object yet, resolve the module and class,
call `_from_raw_entity` — with just the entity id when the captured
argument list is empty, otherwise with a list built as
`args.append(entity.id()); args.extend(component.args)` — and store the
result into the component; then run the proxy registration loop on the
component's object. Resolution failure propagates (no catch). -/
def receiveComponentAdded (env : PyEnv) (ps : List PythonEventProxy) (e : EntityId)
    (c : PythonScript) : Except ResolveError (PythonScript × List PythonEventProxy) :=
  match c.object with
  | some o => .ok (c, registerWithProxies ps e o)
  | none =>
    match env c.module c.cls with
    | none => .error { module := c.module, cls := c.cls }
    | some k =>
      let obj :=
        if c.args.length == 0 then
          from_raw_entity k [Value.vid e]
        else
          from_raw_entity k (Value.vid e :: c.args)
      .ok ({ c with object := some obj }, registerWithProxies ps e obj)

/-- `PythonSystem::receive(const EntityDestroyedEvent&)`: for every
proxy, `delete_receiver(event.entity)`. -/
def receiveEntityDestroyed (ps : List PythonEventProxy) (e : EntityId) :
    List PythonEventProxy :=
  ps.map fun p => delete_receiver p e

/-- `EntityManager_configure` (the construction-from-script path): create
an entity and assign it a `PythonScript` wrapping the calling Python
object. Returns the new entity's id and the component assigned to it. -/
def EntityManager_configure (freshId : EntityId) (self : ScriptObject) :
    EntityId × PythonScript :=
  (freshId, PythonScript.fromObject self)

/-- `get_component<Component>`: look the component up; if the handle is
empty return NULL (exposed to Python as None), otherwise the component. -/
def get_component (em : EntityId → Option α) (id : EntityId) : Option α :=
  match em id with
  | none => none
  | some c => some c

/-- One entity as seen by `EntityManager::each<PythonScript>`: its id and
its `PythonScript` component, when it has one. -/
structure EntityRec where
  id : EntityId
  script : Option PythonScript
deriving DecidableEq

/-- `PythonSystem::update`: `em.each<PythonScript>` visits every entity
holding the component and calls `python.object.attr("update")(dt)`.
An attribute-lookup failure (unrealized object, or object without an
`update` attribute) or a raising handler is printed, cleared and
re-thrown, aborting the pass. Returns the list of performed
`update(dt)` invocations and whether an error propagated. -/
def PythonSystem_update (dt : Value) : List EntityRec → List (EntityId × Value) × Bool
  | [] => ([], false)
  | r :: rest =>
    match r.script with
    | none => PythonSystem_update dt rest
    | some c =>
      match c.object with
      | none => ([], true)
      | some o =>
        if o.attrs.contains "update" then
          if o.raising.contains "update" then ([], true)
          else
            let res := PythonSystem_update dt rest
            ((r.id, dt) :: res.1, res.2)
        else ([], true)

/-- The loop body of `BroadcastPythonEventProxy::receive` over a receiver
list: for each entity, fetch its script component and call
`object.attr(handler_name)(event)`. A missing component or object, a
missing handler attribute (AttributeError at `attr` lookup) or a raising
handler aborts delivery with an error. Returns the entities that
received the event and whether an error propagated. -/
def deliverList (handler : String) (comps : EntityId → Option PythonScript) :
    List EntityId → List EntityId × Bool
  | [] => ([], false)
  | e :: rest =>
    match comps e with
    | none => ([], true)
    | some c =>
      match c.object with
      | none => ([], true)
      | some o =>
        if o.attrs.contains handler then
          if o.raising.contains handler then ([], true)
          else
            let res := deliverList handler comps rest
            (e :: res.1, res.2)
        else ([], true)

/-- `BroadcastPythonEventProxy::receive`: deliver the event to every
registered entity via its configured handler name. -/
def BroadcastPythonEventProxy_receive (p : PythonEventProxy)
    (comps : EntityId → Option PythonScript) : List EntityId × Bool :=
  deliverList p.handler_name comps p.entities

/-! ### Basic lemmas about the embedded operations -/

theorem unpack_args_eq (l acc : List Value) : unpack_args acc l = acc ++ l := by
  induction l generalizing acc with
  | nil => simp [unpack_args]
  | cons a rest ih => simp [unpack_args, ih]

theorem fromClass_eq (m k : String) (l : List Value) :
    PythonScript.fromClass m k l = ⟨m, k, l, none⟩ := by
  simp [PythonScript.fromClass, unpack_args_eq]

theorem receive_of_realized (env : PyEnv) (ps : List PythonEventProxy) (e : EntityId)
    (c : PythonScript) (o : ScriptObject) (hobj : c.object = some o) :
    receiveComponentAdded env ps e c = .ok (c, registerWithProxies ps e o) := by
  simp [receiveComponentAdded, hobj]

theorem receive_of_unrealized (env : PyEnv) (ps : List PythonEventProxy) (e : EntityId)
    (c : PythonScript) (K : PyClass) (hobj : c.object = none)
    (henv : env c.module c.cls = some K) :
    receiveComponentAdded env ps e c =
      .ok ({ c with object := some (from_raw_entity K (Value.vid e :: c.args)) },
           registerWithProxies ps e (from_raw_entity K (Value.vid e :: c.args))) := by
  cases hc : c.args with
  | nil => simp [receiveComponentAdded, hobj, henv, hc]
  | cons a rest => simp [receiveComponentAdded, hobj, henv, hc]

/-! ### Claim C1: lazy realization -/

/-- Claim C1: for any entity assigned a `PythonScript` built from
module/class/args with no pre-existing script object, the component's
script object is unset as constructed by the assignment, and processing
the component-added notification sets it to the object built by the
class's factory from the captured entity identity and arguments. -/
theorem lazy_realization_sets_object (env : PyEnv) (ps : List PythonEventProxy)
    (e : EntityId) (m k : String) (cargs : List Value) (K : PyClass)
    (henv : env m k = some K) :
    (PythonScript.fromClass m k cargs).object = none ∧
    receiveComponentAdded env ps e (PythonScript.fromClass m k cargs) =
      .ok (⟨m, k, cargs, some (from_raw_entity K (Value.vid e :: cargs))⟩,
           registerWithProxies ps e (from_raw_entity K (Value.vid e :: cargs))) := by
  rw [fromClass_eq]
  exact ⟨rfl, receive_of_unrealized env ps e ⟨m, k, cargs, none⟩ K rfl henv⟩

/-- Witness for C1 at a concrete module/class environment. -/
theorem lazy_realization_sets_object_witness :
    (fun m c => if m = "game.mod" ∧ c = "Player" then
        some (⟨["update", "on_tick"], []⟩ : PyClass) else none : PyEnv)
      "game.mod" "Player" = some ⟨["update", "on_tick"], []⟩ ∧
    (PythonScript.fromClass "game.mod" "Player" [Value.vint 4]).object = none := by
  refine ⟨by decide, ?_⟩
  exact (lazy_realization_sets_object
    (fun m c => if m = "game.mod" ∧ c = "Player" then some ⟨["update", "on_tick"], []⟩ else none)
    [] ⟨0, 1⟩ "game.mod" "Player" [Value.vint 4] ⟨["update", "on_tick"], []⟩ (by decide)).1

/-! ### Claim C7: argument forwarding at realization -/

/-- Claim C7: realizing an unrealized `PythonScript` resolves its
module/class and invokes the class's factory with the entity identity as
first positional argument followed by the captured constructor arguments
in order, storing the result into the component's `object` field. -/
theorem argument_forwarding (env : PyEnv) (ps : List PythonEventProxy) (e : EntityId)
    (c : PythonScript) (K : PyClass) (hobj : c.object = none)
    (henv : env c.module c.cls = some K) :
    receiveComponentAdded env ps e c =
      .ok ({ c with object := some (from_raw_entity K (Value.vid e :: c.args)) },
           registerWithProxies ps e (from_raw_entity K (Value.vid e :: c.args))) ∧
    (from_raw_entity K (Value.vid e :: c.args)).factoryCall =
      some (Value.vid e :: c.args) := by
  exact ⟨receive_of_unrealized env ps e c K hobj henv, rfl⟩

/-- Witness for C7: two captured arguments are forwarded after the entity
identity, positionally and in order. -/
theorem argument_forwarding_witness :
    (PythonScript.fromClass "m" "Ctor" [Value.vint 4, Value.vint 5]).object = none ∧
    ((fun _ _ => some (⟨["update"], []⟩ : PyClass) : PyEnv) "m" "Ctor" =
      some ⟨["update"], []⟩) ∧
    (from_raw_entity ⟨["update"], []⟩
        (Value.vid ⟨2, 3⟩ :: (PythonScript.fromClass "m" "Ctor"
          [Value.vint 4, Value.vint 5]).args)).factoryCall =
      some [Value.vid ⟨2, 3⟩, Value.vint 4, Value.vint 5] := by
  refine ⟨by simp [fromClass_eq], rfl, ?_⟩
  have h := (argument_forwarding (fun _ _ => some ⟨["update"], []⟩) [] ⟨2, 3⟩
    (PythonScript.fromClass "m" "Ctor" [Value.vint 4, Value.vint 5]) ⟨["update"], []⟩
    (by simp [fromClass_eq]) rfl).2
  simpa [fromClass_eq] using h

/-! ### Claim C2: proxy registration on realization -/

/-- Claim C2: processing a script-component-added notification registers
the entity with exactly those proxies whose eligibility test passes on
the component's script object, appending one entry per passing proxy and
leaving failing proxies untouched; the default `can_send` returns true
if and only if the object exposes the proxy's handler-method name. -/
theorem registration_on_realization (env : PyEnv) (ps : List PythonEventProxy)
    (e : EntityId) (c c' : PythonScript) (ps' : List PythonEventProxy) (o : ScriptObject)
    (h : receiveComponentAdded env ps e c = .ok (c', ps'))
    (ho : c'.object = some o) :
    ps' = registerWithProxies ps e o ∧
    (∀ p, can_send p o = true ↔ p.handler_name ∈ o.attrs) ∧
    (∀ p, can_send p o = true →
      (add_receiver p e).entities = p.entities ++ [e]) ∧
    (∀ p, can_send p o = false →
      (if can_send p o then add_receiver p e else p) = p) := by
  refine ⟨?_, fun p => by simp [can_send], fun p _ => rfl, fun p hp => by simp [hp]⟩
  cases hc : c.object with
  | some o0 =>
    rw [receive_of_realized env ps e c o0 hc] at h
    injection h with h1
    injection h1 with hcc hpp
    subst hcc
    rw [hc] at ho
    injection ho with hoo
    rw [← hpp, hoo]
  | none =>
    cases henv : env c.module c.cls with
    | none => simp [receiveComponentAdded, hc, henv] at h
    | some K =>
      rw [receive_of_unrealized env ps e c K hc henv] at h
      injection h with h1
      injection h1 with hcc hpp
      rw [← hcc] at ho
      simp at ho
      rw [← hpp, ho]

/-- Witness for C2: an object exposing only `on_tick` gets registered
with the `on_tick` proxy and not with the `on_hit` proxy. -/
theorem registration_on_realization_witness :
    receiveComponentAdded (fun _ _ => none) [⟨"on_tick", []⟩, ⟨"on_hit", []⟩] ⟨1, 1⟩
        (PythonScript.fromObject ⟨["on_tick"], [], none⟩) =
      .ok (PythonScript.fromObject ⟨["on_tick"], [], none⟩,
           [⟨"on_tick", [⟨1, 1⟩]⟩, ⟨"on_hit", []⟩]) ∧
    (PythonScript.fromObject ⟨["on_tick"], [], none⟩).object = some ⟨["on_tick"], [], none⟩ ∧
    [⟨"on_tick", [⟨1, 1⟩]⟩, ⟨"on_hit", []⟩] =
      registerWithProxies [⟨"on_tick", []⟩, ⟨"on_hit", []⟩] ⟨1, 1⟩ ⟨["on_tick"], [], none⟩ := by
  refine ⟨rfl, rfl, ?_⟩
  exact (registration_on_realization (fun _ _ => none) [⟨"on_tick", []⟩, ⟨"on_hit", []⟩]
    ⟨1, 1⟩ (PythonScript.fromObject ⟨["on_tick"], [], none⟩)
    (PythonScript.fromObject ⟨["on_tick"], [], none⟩)
    [⟨"on_tick", [⟨1, 1⟩]⟩, ⟨"on_hit", []⟩] ⟨["on_tick"], [], none⟩ rfl rfl).1

/-! ### Claim C8: construction-from-script path -/

/-- Claim C8: a component created by `EntityManager_configure` (a script
object attaching itself to a fresh entity) is already realized; the
component-added handler skips factory construction — for every
environment, even one resolving nothing — and runs the same proxy
registration logic; the entity participates in the same update loop as
forward-path entities. -/
theorem script_constructed_component_prerealized (self : ScriptObject) (env : PyEnv)
    (ps : List PythonEventProxy) (e : EntityId) (dt : Value)
    (h1 : self.attrs.contains "update" = true)
    (h2 : self.raising.contains "update" = false) :
    (EntityManager_configure e self).2.object = some self ∧
    receiveComponentAdded env ps e (EntityManager_configure e self).2 =
      .ok ((EntityManager_configure e self).2, registerWithProxies ps e self) ∧
    PythonSystem_update dt [⟨e, some (EntityManager_configure e self).2⟩] =
      ([(e, dt)], false) := by
  refine ⟨rfl, receive_of_realized env ps e _ self rfl, ?_⟩
  have m1 : "update" ∈ self.attrs := by simpa using h1
  have m2 : "update" ∉ self.raising := by simpa using h2
  simp [PythonSystem_update, EntityManager_configure, PythonScript.fromObject, m1, m2]

/-- Witness for C8 with a concrete wrapped object, an environment that
resolves nothing, and one proxy. -/
theorem script_constructed_component_prerealized_witness :
    (ScriptObject.mk ["update"] [] none).attrs.contains "update" = true ∧
    (ScriptObject.mk ["update"] [] none).raising.contains "update" = false ∧
    receiveComponentAdded (fun _ _ => none) [⟨"update", []⟩] ⟨5, 1⟩
        (EntityManager_configure ⟨5, 1⟩ ⟨["update"], [], none⟩).2 =
      .ok ((EntityManager_configure ⟨5, 1⟩ ⟨["update"], [], none⟩).2,
           registerWithProxies [⟨"update", []⟩] ⟨5, 1⟩ ⟨["update"], [], none⟩) := by
  refine ⟨by decide, by decide, ?_⟩
  exact (script_constructed_component_prerealized ⟨["update"], [], none⟩ (fun _ _ => none)
    [⟨"update", []⟩] ⟨5, 1⟩ (Value.vint 0) (by decide) (by decide)).2.1

/-! ### Claim C10: get_component returns null on missing component -/

/-- Claim C10: the script-facing `get_component` lookup returns a null
result (None on the Python side) rather than failing when the entity has
no component of the requested type, and returns the component when one
is attached. -/
theorem get_component_null_on_missing {α : Type} (em : EntityId → Option α)
    (id : EntityId) :
    (em id = none → get_component em id = none) ∧
    (∀ c, em id = some c → get_component em id = some c) := by
  constructor
  · intro h
    simp [get_component, h]
  · intro c h
    simp [get_component, h]

/-- Witness for C10: a store holding a component only at index 0. -/
theorem get_component_null_on_missing_witness :
    get_component (fun i => if i.index = 0 then some 42 else none) ⟨1, 1⟩ = none ∧
    get_component (fun i => if i.index = 0 then some 42 else none) ⟨0, 1⟩ = some 42 := by
  constructor
  · exact (get_component_null_on_missing
      (fun i => if i.index = 0 then some 42 else none) ⟨1, 1⟩).1 (by decide)
  · exact (get_component_null_on_missing
      (fun i => if i.index = 0 then some 42 else none) ⟨0, 1⟩).2 42 (by decide)

/-! ### Claim C4: proxy registration operations (corrected) -/

/-- Claim C4 counterexample: `add_receiver` on an already-registered
entity does not leave the registration list unchanged in effect — it
appends a duplicate entry (the entity is then counted twice). -/
theorem register_idempotence_counterexample :
    (add_receiver ⟨"on_tick", [⟨0, 1⟩]⟩ ⟨0, 1⟩).entities = [⟨0, 1⟩, ⟨0, 1⟩] ∧
    List.count ⟨0, 1⟩ (add_receiver ⟨"on_tick", [⟨0, 1⟩]⟩ ⟨0, 1⟩).entities = 2 ∧
    (add_receiver ⟨"on_tick", [⟨0, 1⟩]⟩ ⟨0, 1⟩).entities ≠
      (⟨"on_tick", [⟨0, 1⟩]⟩ : PythonEventProxy).entities := by
  refine ⟨rfl, by decide, by decide⟩

theorem deleteFirst_of_not_mem (l : List EntityId) (e : EntityId) (he : e ∉ l) :
    deleteFirst l e = l := by
  induction l with
  | nil => rfl
  | cons x xs ih =>
    simp only [List.mem_cons, not_or] at he
    have hx : ¬(x = e) := fun h => he.1 h.symm
    simp [deleteFirst, hx, ih he.2]

/-- Claim C4 (amended): `add_receiver` always appends, so registering an
already-registered entity adds a duplicate entry rather than being a
no-op; unregistering an entity that is not registered is a no-op. -/
theorem register_appends_unregister_noop :
    (∀ (p : PythonEventProxy) (e : EntityId),
      (add_receiver p e).entities = p.entities ++ [e]) ∧
    (∀ (p : PythonEventProxy) (e : EntityId), e ∈ p.entities →
      List.count e (add_receiver p e).entities = List.count e p.entities + 1) ∧
    (∀ (p : PythonEventProxy) (e : EntityId), e ∉ p.entities →
      delete_receiver p e = p) := by
  refine ⟨fun p e => rfl, fun p e _ => by simp [add_receiver], fun p e he => ?_⟩
  cases p
  simp [delete_receiver, deleteFirst_of_not_mem _ _ he]

/-- Witness for C4 (amended): duplicate entry on re-registration, and a
no-op unregistration, at concrete inputs. -/
theorem register_appends_unregister_noop_witness :
    (⟨0, 1⟩ : EntityId) ∈ [(⟨0, 1⟩ : EntityId)] ∧
    List.count ⟨0, 1⟩ (add_receiver ⟨"h", [⟨0, 1⟩]⟩ ⟨0, 1⟩).entities = 2 ∧
    (⟨3, 1⟩ : EntityId) ∉ [(⟨0, 1⟩ : EntityId)] ∧
    delete_receiver ⟨"h", [⟨0, 1⟩]⟩ ⟨3, 1⟩ = ⟨"h", [⟨0, 1⟩]⟩ := by
  refine ⟨by decide, ?_, by decide, ?_⟩
  · exact (register_appends_unregister_noop.2.1 ⟨"h", [⟨0, 1⟩]⟩ ⟨0, 1⟩
      (by decide)).trans (by decide)
  · exact register_appends_unregister_noop.2.2 ⟨"h", [⟨0, 1⟩]⟩ ⟨3, 1⟩ (by decide)

/-! ### Update-pass and delivery helpers -/

/-- Whether visiting an entity in the update pass succeeds: entities
without the component are skipped; an entity with a component needs a
realized object exposing a non-raising `update`. -/
def updateReady (r : EntityRec) : Bool :=
  match r.script with
  | none => true
  | some c =>
    match c.object with
    | none => false
    | some o => o.attrs.contains "update" && !(o.raising.contains "update")

/-- The `update(dt)` invocations an error-free pass performs: one per
entity holding the script component, in iteration order. -/
def scriptHolders (ents : List EntityRec) (dt : Value) : List (EntityId × Value) :=
  ents.filterMap fun r => if r.script.isSome then some (r.id, dt) else none

/-- Whether delivering to one registered entity succeeds: it needs a
script component whose realized object exposes a non-raising handler. -/
def deliverReady (handler : String) (comps : EntityId → Option PythonScript)
    (e : EntityId) : Bool :=
  match comps e with
  | none => false
  | some c =>
    match c.object with
    | none => false
    | some o => o.attrs.contains handler && !(o.raising.contains handler)

theorem update_append_ready (dt : Value) (pre rest : List EntityRec)
    (h : ∀ r ∈ pre, updateReady r = true) :
    PythonSystem_update dt (pre ++ rest) =
      (scriptHolders pre dt ++ (PythonSystem_update dt rest).1,
       (PythonSystem_update dt rest).2) := by
  induction pre with
  | nil => simp [scriptHolders]
  | cons r pre' ih =>
    have hr := h r (List.mem_cons_self r pre')
    have hrest : ∀ x ∈ pre', updateReady x = true :=
      fun x hx => h x (List.mem_cons_of_mem r hx)
    cases hs : r.script with
    | none =>
      simp [PythonSystem_update, hs, scriptHolders, List.filterMap_cons, ih hrest]
    | some c =>
      cases ho : c.object with
      | none => simp [updateReady, hs, ho] at hr
      | some o =>
        simp [updateReady, hs, ho] at hr
        simp [PythonSystem_update, hs, ho, hr.1, hr.2, scriptHolders,
          List.filterMap_cons, ih hrest]

theorem update_abort (dt : Value) (r : EntityRec) (rest : List EntityRec)
    (hr : updateReady r = false) :
    PythonSystem_update dt (r :: rest) = ([], true) := by
  cases hs : r.script with
  | none => simp [updateReady, hs] at hr
  | some c =>
    cases ho : c.object with
    | none => simp [PythonSystem_update, hs, ho]
    | some o =>
      simp [updateReady, hs, ho] at hr
      by_cases h1 : "update" ∈ o.attrs
      · simp [PythonSystem_update, hs, ho, h1, hr h1]
      · simp [PythonSystem_update, hs, ho, h1]

theorem deliver_append_ready (handler : String) (comps : EntityId → Option PythonScript)
    (pre rest : List EntityId) (h : ∀ e ∈ pre, deliverReady handler comps e = true) :
    deliverList handler comps (pre ++ rest) =
      (pre ++ (deliverList handler comps rest).1, (deliverList handler comps rest).2) := by
  induction pre with
  | nil => simp
  | cons e pre' ih =>
    have he := h e (List.mem_cons_self e pre')
    have hrest : ∀ x ∈ pre', deliverReady handler comps x = true :=
      fun x hx => h x (List.mem_cons_of_mem e hx)
    cases hce : comps e with
    | none => simp [deliverReady, hce] at he
    | some c =>
      cases ho : c.object with
      | none => simp [deliverReady, hce, ho] at he
      | some o =>
        simp [deliverReady, hce, ho] at he
        simp [deliverList, hce, ho, he.1, he.2, ih hrest]

theorem deliver_abort (handler : String) (comps : EntityId → Option PythonScript)
    (e : EntityId) (rest : List EntityId)
    (he : deliverReady handler comps e = false) :
    deliverList handler comps (e :: rest) = ([], true) := by
  cases hce : comps e with
  | none => simp [deliverList, hce]
  | some c =>
    cases ho : c.object with
    | none => simp [deliverList, hce, ho]
    | some o =>
      simp [deliverReady, hce, ho] at he
      by_cases h1 : handler ∈ o.attrs
      · simp [deliverList, hce, ho, h1, he h1]
      · simp [deliverList, hce, ho, h1]

theorem scriptHolders_id_mem (ents : List EntityRec) (dt : Value) (x : EntityId)
    (h : (x, dt) ∈ scriptHolders ents dt) : x ∈ ents.map EntityRec.id := by
  simp only [scriptHolders, List.mem_filterMap] at h
  obtain ⟨r, hr, hf⟩ := h
  by_cases hs : r.script.isSome
  · simp only [hs, if_pos, Option.some.injEq, Prod.mk.injEq] at hf
    exact List.mem_map.mpr ⟨r, hr, hf.1⟩
  · simp [hs] at hf

theorem scriptHolders_nodup (ents : List EntityRec) (dt : Value)
    (hids : (ents.map EntityRec.id).Nodup) : (scriptHolders ents dt).Nodup := by
  induction ents with
  | nil => simp [scriptHolders]
  | cons r rest ih =>
    simp only [List.map_cons, List.nodup_cons] at hids
    by_cases hs : r.script.isSome
    · simp only [scriptHolders, List.filterMap_cons, hs, if_pos]
      refine List.nodup_cons.mpr ⟨?_, ih hids.2⟩
      intro hmem
      exact hids.1 (scriptHolders_id_mem rest dt r.id hmem)
    · simp only [scriptHolders, List.filterMap_cons, hs, if_neg, Bool.false_eq_true,
        not_false_iff]
      exact ih hids.2

theorem scriptHolders_mem (ents : List EntityRec) (dt : Value) (r : EntityRec)
    (hr : r ∈ ents) (hs : r.script.isSome = true) :
    (r.id, dt) ∈ scriptHolders ents dt := by
  simp only [scriptHolders, List.mem_filterMap]
  exact ⟨r, hr, by simp [hs]⟩

theorem scriptHolders_not_mem (ents : List EntityRec) (dt : Value) (r : EntityRec)
    (hids : (ents.map EntityRec.id).Nodup) (hr : r ∈ ents) (hs : r.script = none) :
    (r.id, dt) ∉ scriptHolders ents dt := by
  intro hmem
  simp only [scriptHolders, List.mem_filterMap] at hmem
  obtain ⟨r', hr', hf⟩ := hmem
  by_cases hs' : r'.script.isSome
  · simp only [hs', if_pos, Option.some.injEq, Prod.mk.injEq] at hf
    have heq : r' = r := List.inj_on_of_nodup_map hids hr' hr hf.1
    rw [heq, hs] at hs'
    simp at hs'
  · simp [hs'] at hf

/-! ### Claim C9: per-tick update propagation -/

/-- Claim C9: one call to the update pass invokes `update(dt)` exactly
once on the script object of every entity currently holding a realized
script component (the invocation log equals one entry per holder, in
iteration order, with no duplicates), and performs no invocation for an
entity that does not hold one. -/
theorem update_propagation (dt : Value) (ents : List EntityRec)
    (hready : ∀ r ∈ ents, updateReady r = true)
    (hids : (ents.map EntityRec.id).Nodup) :
    PythonSystem_update dt ents = (scriptHolders ents dt, false) ∧
    (∀ r ∈ ents, r.script.isSome = true → (r.id, dt) ∈ (PythonSystem_update dt ents).1) ∧
    (PythonSystem_update dt ents).1.Nodup ∧
    (∀ r ∈ ents, r.script = none → (r.id, dt) ∉ (PythonSystem_update dt ents).1) := by
  have hmain : PythonSystem_update dt ents = (scriptHolders ents dt, false) := by
    have h := update_append_ready dt ents [] hready
    simpa [PythonSystem_update] using h
  refine ⟨hmain, ?_, ?_, ?_⟩
  · intro r hr hs
    rw [hmain]
    exact scriptHolders_mem ents dt r hr hs
  · rw [hmain]
    exact scriptHolders_nodup ents dt hids
  · intro r hr hs
    rw [hmain]
    exact scriptHolders_not_mem ents dt r hids hr hs

/-- Witness for C9: two entities, one scripted (flag `update` exposed)
and one without the component; one pass updates exactly the scripted
one. -/
theorem update_propagation_witness :
    (∀ r ∈ [EntityRec.mk ⟨0, 1⟩ (some (PythonScript.fromObject ⟨["update"], [], none⟩)),
            EntityRec.mk ⟨1, 1⟩ none], updateReady r = true) ∧
    PythonSystem_update (Value.vint 1)
      [EntityRec.mk ⟨0, 1⟩ (some (PythonScript.fromObject ⟨["update"], [], none⟩)),
       EntityRec.mk ⟨1, 1⟩ none] = ([(⟨0, 1⟩, Value.vint 1)], false) := by
  refine ⟨by decide, ?_⟩
  have h := (update_propagation (Value.vint 1)
    [EntityRec.mk ⟨0, 1⟩ (some (PythonScript.fromObject ⟨["update"], [], none⟩)),
     EntityRec.mk ⟨1, 1⟩ none] (by decide) (by decide)).1
  exact h.trans (by decide)

/-! ### Claim C6: fatal delivery/update errors -/

/-- Claim C6: a script handler raising during the per-tick update pass or
during broadcast event delivery propagates out of the pass (error flag
set, not swallowed) and aborts the remainder: entities after the raising
one receive no call; only those visited before it do. -/
theorem handler_error_aborts_pass :
    (∀ (dt : Value) (pre post : List EntityRec) (bad : EntityRec) (c : PythonScript)
       (o : ScriptObject),
       (∀ r ∈ pre, updateReady r = true) →
       bad.script = some c → c.object = some o →
       o.attrs.contains "update" = true → o.raising.contains "update" = true →
       PythonSystem_update dt (pre ++ bad :: post) = (scriptHolders pre dt, true)) ∧
    (∀ (handler : String) (comps : EntityId → Option PythonScript)
       (pre post : List EntityId) (bad : EntityId) (c : PythonScript) (o : ScriptObject),
       (∀ e ∈ pre, deliverReady handler comps e = true) →
       comps bad = some c → c.object = some o →
       o.attrs.contains handler = true → o.raising.contains handler = true →
       BroadcastPythonEventProxy_receive ⟨handler, pre ++ bad :: post⟩ comps =
         (pre, true)) := by
  constructor
  · intro dt pre post bad c o hpre hb1 hb2 hb3 hb4
    have habort : PythonSystem_update dt (bad :: post) = ([], true) := by
      apply update_abort
      simp [updateReady, hb1, hb2]
      intro _
      simpa using hb4
    rw [update_append_ready dt pre (bad :: post) hpre, habort]
    simp
  · intro handler comps pre post bad c o hpre hb1 hb2 hb3 hb4
    have habort : deliverList handler comps (bad :: post) = ([], true) := by
      apply deliver_abort
      simp [deliverReady, hb1, hb2]
      intro _
      simpa using hb4
    simp only [BroadcastPythonEventProxy_receive]
    rw [deliver_append_ready handler comps pre (bad :: post) hpre, habort]
    simp

/-- Witness for C6: a raising `update` handler in the middle of a pass,
and a raising `on_tick` handler in the middle of a broadcast: both abort
with the error propagated and the later entity unvisited. -/
theorem handler_error_aborts_pass_witness :
    PythonSystem_update (Value.vint 0)
      [EntityRec.mk ⟨0, 1⟩ (some (PythonScript.fromObject ⟨["update"], [], none⟩)),
       EntityRec.mk ⟨1, 1⟩ (some (PythonScript.fromObject ⟨["update"], ["update"], none⟩)),
       EntityRec.mk ⟨2, 1⟩ (some (PythonScript.fromObject ⟨["update"], [], none⟩))] =
      ([(⟨0, 1⟩, Value.vint 0)], true) ∧
    BroadcastPythonEventProxy_receive ⟨"on_tick", [⟨0, 1⟩, ⟨1, 1⟩, ⟨2, 1⟩]⟩
      (fun e => if e = ⟨1, 1⟩ then
          some (PythonScript.fromObject ⟨["on_tick"], ["on_tick"], none⟩)
        else some (PythonScript.fromObject ⟨["on_tick"], [], none⟩)) =
      ([⟨0, 1⟩], true) := by
  constructor
  · have h := handler_error_aborts_pass.1 (Value.vint 0)
      [EntityRec.mk ⟨0, 1⟩ (some (PythonScript.fromObject ⟨["update"], [], none⟩))]
      [EntityRec.mk ⟨2, 1⟩ (some (PythonScript.fromObject ⟨["update"], [], none⟩))]
      (EntityRec.mk ⟨1, 1⟩ (some (PythonScript.fromObject ⟨["update"], ["update"], none⟩)))
      (PythonScript.fromObject ⟨["update"], ["update"], none⟩)
      ⟨["update"], ["update"], none⟩ (by decide) rfl rfl (by decide) (by decide)
    exact h.trans (by decide)
  · have h := handler_error_aborts_pass.2 "on_tick"
      (fun e => if e = ⟨1, 1⟩ then
          some (PythonScript.fromObject ⟨["on_tick"], ["on_tick"], none⟩)
        else some (PythonScript.fromObject ⟨["on_tick"], [], none⟩))
      [⟨0, 1⟩] [⟨2, 1⟩] ⟨1, 1⟩
      (PythonScript.fromObject ⟨["on_tick"], ["on_tick"], none⟩)
      ⟨["on_tick"], ["on_tick"], none⟩ (by decide) (by decide) rfl (by decide) (by decide)
    exact h

/-! ### Claim C5: missing-handler delivery (corrected) -/

/-- Claim C5 counterexample: a registered entity whose script object does
not expose the proxy's handler (entity 1) makes the broadcast delivery
raise an AttributeError — the error flag is set rather than "no error" —
and the other registered entity (entity 2, which does expose the
handler) does not receive the event. -/
theorem missing_handler_skip_counterexample :
    BroadcastPythonEventProxy_receive ⟨"on_tick", [⟨1, 1⟩, ⟨2, 1⟩]⟩
      (fun e => if e = ⟨1, 1⟩ then some (PythonScript.fromObject ⟨[], [], none⟩)
        else some (PythonScript.fromObject ⟨["on_tick"], [], none⟩)) = ([], true) ∧
    (⟨2, 1⟩ : EntityId) ∉
      (BroadcastPythonEventProxy_receive ⟨"on_tick", [⟨1, 1⟩, ⟨2, 1⟩]⟩
        (fun e => if e = ⟨1, 1⟩ then some (PythonScript.fromObject ⟨[], [], none⟩)
          else some (PythonScript.fromObject ⟨["on_tick"], [], none⟩))).1 := by
  exact ⟨by decide, by decide⟩

/-- Claim C5 (amended): when a registered entity's script object no
longer exposes the proxy's configured handler at delivery time, the
broadcast delivery does not skip it — the attribute lookup raises and
the error propagates, so entities registered before it have already
received the event and entities after it receive nothing. -/
theorem missing_handler_raises_aborts (handler : String)
    (comps : EntityId → Option PythonScript) (pre post : List EntityId) (bad : EntityId)
    (c : PythonScript) (o : ScriptObject)
    (hpre : ∀ e ∈ pre, deliverReady handler comps e = true)
    (hb1 : comps bad = some c) (hb2 : c.object = some o)
    (hb3 : o.attrs.contains handler = false) :
    BroadcastPythonEventProxy_receive ⟨handler, pre ++ bad :: post⟩ comps = (pre, true) := by
  have habort : deliverList handler comps (bad :: post) = ([], true) := by
    apply deliver_abort
    simp [deliverReady, hb1, hb2]
    intro hmem
    exact absurd hmem (by simpa using hb3)
  simp only [BroadcastPythonEventProxy_receive]
  rw [deliver_append_ready handler comps pre (bad :: post) hpre, habort]
  simp

/-- Witness for the amended C5: the handler-less object sits between two
well-behaved receivers; the first receives, the delivery errors, the
last receives nothing. -/
theorem missing_handler_raises_aborts_witness :
    BroadcastPythonEventProxy_receive ⟨"on_tick", [⟨0, 1⟩, ⟨1, 1⟩, ⟨2, 1⟩]⟩
      (fun e => if e = ⟨1, 1⟩ then some (PythonScript.fromObject ⟨[], [], none⟩)
        else some (PythonScript.fromObject ⟨["on_tick"], [], none⟩)) = ([⟨0, 1⟩], true) := by
  exact missing_handler_raises_aborts "on_tick"
    (fun e => if e = ⟨1, 1⟩ then some (PythonScript.fromObject ⟨[], [], none⟩)
      else some (PythonScript.fromObject ⟨["on_tick"], [], none⟩))
    [⟨0, 1⟩] [⟨2, 1⟩] ⟨1, 1⟩ (PythonScript.fromObject ⟨[], [], none⟩) ⟨[], [], none⟩
    (by decide) (by decide) rfl (by decide)

/-! ### Bridge operation sequences (for the registration-set invariant) -/

/-- A bridge lifecycle operation, as it affects the proxy lists: a
component-added notification for an entity whose (realized) script
object is `o`, or an entity-destroyed notification. By
`receive_of_realized` / `receive_of_unrealized`, the proxy-list effect
of `receiveComponentAdded` is exactly `registerWithProxies` with the
component's realized object. -/
inductive BridgeOp where
  | added (e : EntityId) (o : ScriptObject)
  | destroyed (e : EntityId)
deriving DecidableEq

/-- The entities for which a component-added notification occurs in an
operation sequence, in order. -/
def addedEntities : List BridgeOp → List EntityId
  | [] => []
  | .added e _ :: rest => e :: addedEntities rest
  | .destroyed _ :: rest => addedEntities rest

/-- The effect of one bridge operation on the proxy lists. -/
def applyBridgeOp (ps : List PythonEventProxy) : BridgeOp → List PythonEventProxy
  | .added e o => registerWithProxies ps e o
  | .destroyed e => receiveEntityDestroyed ps e

/-- Run a sequence of bridge operations over the proxy lists. -/
def runBridge (ps : List PythonEventProxy) : List BridgeOp → List PythonEventProxy
  | [] => ps
  | op :: rest => runBridge (applyBridgeOp ps op) rest

/-- The inductive invariant: every proxy list is duplicate-free and
contains no entity with a still-pending component-added operation. -/
def BridgeInv (ops : List BridgeOp) (ps : List PythonEventProxy) : Prop :=
  ∀ p ∈ ps, p.entities.Nodup ∧ ∀ x ∈ p.entities, x ∉ addedEntities ops

theorem deleteFirst_subset (l : List EntityId) (e x : EntityId)
    (h : x ∈ deleteFirst l e) : x ∈ l := by
  induction l with
  | nil => simp [deleteFirst] at h
  | cons y ys ih =>
    by_cases hy : y = e
    · simp only [deleteFirst, hy, if_pos] at h
      exact List.mem_cons_of_mem y h
    · simp only [deleteFirst, hy, if_neg, List.mem_cons, not_false_iff] at h
      rcases h with h | h
      · exact h ▸ List.mem_cons_self y ys
      · exact List.mem_cons_of_mem y (ih h)

theorem deleteFirst_nodup (l : List EntityId) (e : EntityId) (h : l.Nodup) :
    (deleteFirst l e).Nodup := by
  induction l with
  | nil => simp [deleteFirst]
  | cons y ys ih =>
    rw [List.nodup_cons] at h
    by_cases hy : y = e
    · simp only [deleteFirst, hy, if_pos]
      exact h.2
    · simp only [deleteFirst, hy, if_neg, not_false_iff]
      exact List.nodup_cons.mpr ⟨fun hm => h.1 (deleteFirst_subset ys e y hm), ih h.2⟩

theorem not_mem_deleteFirst_self (l : List EntityId) (e : EntityId) (h : l.Nodup) :
    e ∉ deleteFirst l e := by
  induction l with
  | nil => simp [deleteFirst]
  | cons y ys ih =>
    rw [List.nodup_cons] at h
    by_cases hy : y = e
    · simp only [deleteFirst, hy, if_pos]
      exact hy ▸ h.1
    · simp only [deleteFirst, hy, if_neg, List.mem_cons, not_false_iff, not_or]
      exact ⟨fun he => hy he.symm, ih h.2⟩

theorem bridge_step_inv (op : BridgeOp) (rest : List BridgeOp)
    (ps : List PythonEventProxy) (hN : (addedEntities (op :: rest)).Nodup)
    (hI : BridgeInv (op :: rest) ps) : BridgeInv rest (applyBridgeOp ps op) := by
  cases op with
  | added e o =>
    intro p' hp'
    simp only [applyBridgeOp, registerWithProxies, List.mem_map] at hp'
    obtain ⟨p, hp, hf⟩ := hp'
    obtain ⟨hnd, hmem⟩ := hI p hp
    simp only [addedEntities, List.nodup_cons] at hN
    have hmem' : ∀ x ∈ p.entities, x ≠ e ∧ x ∉ addedEntities rest := by
      intro x hx
      have := hmem x hx
      simp only [addedEntities, List.mem_cons, not_or] at this
      exact this
    by_cases hcs : can_send p o = true
    · rw [if_pos hcs] at hf
      subst hf
      constructor
      · simp only [add_receiver]
        refine List.Nodup.append hnd (List.nodup_singleton e) ?_
        intro x hx hxe
        rw [List.mem_singleton] at hxe
        exact (hmem' x hx).1 hxe
      · intro x hx
        simp only [add_receiver, List.mem_append, List.mem_singleton] at hx
        rcases hx with hx | hx
        · exact (hmem' x hx).2
        · exact hx ▸ hN.1
    · rw [if_neg hcs] at hf
      subst hf
      exact ⟨hnd, fun x hx => (hmem' x hx).2⟩
  | destroyed e =>
    intro p' hp'
    simp only [applyBridgeOp, receiveEntityDestroyed, List.mem_map] at hp'
    obtain ⟨p, hp, hf⟩ := hp'
    obtain ⟨hnd, hmem⟩ := hI p hp
    subst hf
    refine ⟨deleteFirst_nodup p.entities e hnd, ?_⟩
    intro x hx
    have hx' : x ∈ p.entities := deleteFirst_subset p.entities e x hx
    have := hmem x hx'
    simpa [addedEntities] using this

theorem runBridge_prefix_inv (pre rest : List BridgeOp) (ps : List PythonEventProxy)
    (hN : (addedEntities (pre ++ rest)).Nodup) (hI : BridgeInv (pre ++ rest) ps) :
    BridgeInv rest (runBridge ps pre) := by
  induction pre generalizing ps with
  | nil => exact hI
  | cons op pre' ih =>
    have hstep := bridge_step_inv op (pre' ++ rest) ps hN hI
    have hN' : (addedEntities (pre' ++ rest)).Nodup := by
      cases op with
      | added e o => exact (List.nodup_cons.mp hN).2
      | destroyed e => exact hN
    exact ih (applyBridgeOp ps op) hN' hstep

theorem runBridge_append (ps : List PythonEventProxy) (l1 l2 : List BridgeOp) :
    runBridge ps (l1 ++ l2) = runBridge (runBridge ps l1) l2 := by
  induction l1 generalizing ps with
  | nil => rfl
  | cons op rest ih => simp [runBridge, ih]

/-! ### Claim C3: registration-set invariant (corrected) -/

/-- Claim C3 counterexample: two component-added notifications for the
same live entity (its component re-assigned without destruction) are a
sequence of bridge operations after which the proxy's registration list
holds duplicate entries; processing an entity-destroyed notification
then removes only the first entry, so the destroyed entity still
appears in the proxy's registration list. -/
theorem registration_invariant_counterexample :
    runBridge [⟨"update", []⟩]
      [BridgeOp.added ⟨0, 1⟩ ⟨["update"], [], none⟩,
       BridgeOp.added ⟨0, 1⟩ ⟨["update"], [], none⟩] =
      [⟨"update", [⟨0, 1⟩, ⟨0, 1⟩]⟩] ∧
    ¬ ([⟨0, 1⟩, ⟨0, 1⟩] : List EntityId).Nodup ∧
    runBridge [⟨"update", []⟩]
      [BridgeOp.added ⟨0, 1⟩ ⟨["update"], [], none⟩,
       BridgeOp.added ⟨0, 1⟩ ⟨["update"], [], none⟩,
       BridgeOp.destroyed ⟨0, 1⟩] = [⟨"update", [⟨0, 1⟩]⟩] ∧
    (⟨0, 1⟩ : EntityId) ∈ (⟨"update", [⟨0, 1⟩]⟩ : PythonEventProxy).entities := by
  exact ⟨by decide, by decide, by decide, by decide⟩

/-- Claim C3 (amended): restricted to operation sequences in which each
entity receives at most one component-added notification (the regime the
spec assumes, since `add_receiver` never deduplicates), every proxy
registration list reachable from empty lists is duplicate-free, and
immediately after an entity-destroyed notification is processed the
destroyed entity appears in no proxy's registration list. -/
theorem registration_invariant_amended (ps0 : List PythonEventProxy)
    (ops : List BridgeOp) (hinit : ∀ p ∈ ps0, p.entities = [])
    (hadds : (addedEntities ops).Nodup) :
    (∀ pre rest, ops = pre ++ rest →
      ∀ p ∈ runBridge ps0 pre, p.entities.Nodup) ∧
    (∀ pre rest e, ops = pre ++ BridgeOp.destroyed e :: rest →
      ∀ p ∈ runBridge ps0 (pre ++ [BridgeOp.destroyed e]), e ∉ p.entities) := by
  have hI0 : ∀ l : List BridgeOp, BridgeInv l ps0 := by
    intro l p hp
    rw [hinit p hp]
    exact ⟨List.nodup_nil, by simp⟩
  constructor
  · intro pre rest hsplit p hp
    have hN : (addedEntities (pre ++ rest)).Nodup := hsplit ▸ hadds
    exact (runBridge_prefix_inv pre rest ps0 hN (hI0 (pre ++ rest)) p hp).1
  · intro pre rest e hsplit p' hp'
    have hN : (addedEntities (pre ++ BridgeOp.destroyed e :: rest)).Nodup :=
      hsplit ▸ hadds
    have hmid := runBridge_prefix_inv pre (BridgeOp.destroyed e :: rest) ps0 hN
      (hI0 (pre ++ BridgeOp.destroyed e :: rest))
    rw [runBridge_append] at hp'
    simp only [runBridge, applyBridgeOp, receiveEntityDestroyed, List.mem_map] at hp'
    obtain ⟨p, hp, hf⟩ := hp'
    subst hf
    exact not_mem_deleteFirst_self p.entities e (hmid p hp).1

/-- Witness for the amended C3: two distinct entities added, the first
destroyed; it no longer appears in the proxy's registration list. -/
theorem registration_invariant_amended_witness :
    (∀ p ∈ [(⟨"update", []⟩ : PythonEventProxy)], p.entities = []) ∧
    (addedEntities [BridgeOp.added ⟨1, 1⟩ ⟨["update"], [], none⟩,
        BridgeOp.added ⟨2, 1⟩ ⟨["update"], [], none⟩,
        BridgeOp.destroyed ⟨1, 1⟩]).Nodup ∧
    (⟨1, 1⟩ : EntityId) ∉ (⟨"update", [⟨2, 1⟩]⟩ : PythonEventProxy).entities := by
  refine ⟨by decide, by decide, ?_⟩
  have h := (registration_invariant_amended [⟨"update", []⟩]
    [BridgeOp.added ⟨1, 1⟩ ⟨["update"], [], none⟩,
     BridgeOp.added ⟨2, 1⟩ ⟨["update"], [], none⟩,
     BridgeOp.destroyed ⟨1, 1⟩] (by decide) (by decide)).2
    [BridgeOp.added ⟨1, 1⟩ ⟨["update"], [], none⟩,
     BridgeOp.added ⟨2, 1⟩ ⟨["update"], [], none⟩] [] ⟨1, 1⟩ rfl
  exact h ⟨"update", [⟨2, 1⟩]⟩ (by decide)
